import Mathlib

/-!
Verification of the global input/clipboard event dispatcher of the
gonutz/auto Windows automation library.

The Go source is shallowly embedded: machine integers become Nat or Int
with explicit truncation where overflow matters, the float64 wheel field
becomes an exact rational (the claims under scrutiny are about which value
is assigned, not about binary rounding), OS queries that can fail become
Option or Except parameters, and the mutable state of the message-pump
goroutine becomes explicit state passing.
-/

namespace Auto

/-! ## Windows message constants (values of the w32 package) -/

def WM_LBUTTONDOWN : Nat := 0x0201
def WM_LBUTTONUP : Nat := 0x0202
def WM_RBUTTONDOWN : Nat := 0x0204
def WM_RBUTTONUP : Nat := 0x0205
def WM_MBUTTONDOWN : Nat := 0x0207
def WM_MBUTTONUP : Nat := 0x0208
def WM_MOUSEMOVE : Nat := 0x0200
def WM_MOUSEWHEEL : Nat := 0x020A
def WM_MOUSEHWHEEL : Nat := 0x020E

def VK_RETURN : Nat := 0x0D
def VK_BACK : Nat := 0x08
def VK_LMENU : Nat := 0xA4
def VK_NUMPAD0 : Nat := 0x60

def KEYEVENTF_KEYUP : Nat := 0x0002
def KEYEVENTF_SCANCODE : Nat := 0x0008

/-! ## Event model

KeyboardEvent and MouseEvent are the value types handed to user callbacks.
In Go the callback receives a pointer and the only mutation the API offers
is Cancel, which sets the private cancelled flag; here Cancel returns the
updated value. The Go MouseEvent field named Type is called MType here
because Type is reserved in Lean.
-/

structure KeyboardEvent where
  Key : Nat
  Down : Bool
  Injected : Bool
  cancelled : Bool
  deriving Repr, DecidableEq

/-- Go: func (e *KeyboardEvent) Cancel() { e.cancelled = true } -/
def KeyboardEvent.Cancel (e : KeyboardEvent) : KeyboardEvent :=
  { e with cancelled := true }

structure MouseEvent where
  MType : Nat
  X : Int
  Y : Int
  Wheel : ℚ
  Injected : Bool
  cancelled : Bool
  deriving Repr, DecidableEq

/-- Go: func (e *MouseEvent) Cancel() { e.cancelled = true } -/
def MouseEvent.Cancel (e : MouseEvent) : MouseEvent :=
  { e with cancelled := true }

/-! ## Raw low-level hook records -/

/-- The raw keyboard record the OS hands a WH_KEYBOARD_LL hook.
VkCode is a uint32 and Flags a uint32 in w32. -/
structure KBDLLHOOKSTRUCT where
  VkCode : Nat
  Flags : Nat
  deriving Repr, DecidableEq

/-- The raw mouse record the OS hands a WH_MOUSE_LL hook. MouseData is a
uint32 whose high word carries the wheel delta, Pt the event coordinates. -/
structure MSLLHOOKSTRUCT where
  MouseData : Nat
  PtX : Int
  PtY : Int
  Flags : Nat
  deriving Repr, DecidableEq

/-- Reinterpret the low 16 bits of a Nat as a signed 16-bit integer, the
effect of the Go conversion int16(x). -/
def int16OfNat (n : Nat) : Int :=
  if n % 65536 < 32768 then (n % 65536 : Int) else (n % 65536 : Int) - 65536

/-- Go MousePosition: returns GetCursorPos when it succeeds and an error
otherwise. The GetCursorPos OS query is a parameter: some coordinates on
success, none on failure. -/
def MousePosition (getCursorPos : Option (Int × Int)) : Except String (Int × Int) :=
  match getCursorPos with
  | none => .error "GetCursorPos failed"
  | some (x, y) => .ok (x, y)

/-- The KeyboardEvent constructed inside the keyboard hook of
messageLoop.loop: Key is uint16(kb.VkCode), Down is kb.Flags and 0x80
being zero, Injected is kb.Flags and 0x10 being nonzero. -/
def keyboardEventOf (kb : KBDLLHOOKSTRUCT) : KeyboardEvent :=
  { Key := kb.VkCode % 65536
    Down := kb.Flags &&& 0x80 == 0
    Injected := kb.Flags &&& 0x10 != 0
    cancelled := false }

/-- The MouseEvent constructed inside the mouse hook of messageLoop.loop.
Faithful to the source: wheel starts at 1.0 and is replaced by
delta / 120 only for the two wheel messages; coordinates come from
MousePosition with a fallback to the raw record on error. -/
def mouseEventOf (w : Nat) (mouse : MSLLHOOKSTRUCT)
    (getCursorPos : Option (Int × Int)) : MouseEvent :=
  let wheel : ℚ :=
    if w = WM_MOUSEWHEEL ∨ w = WM_MOUSEHWHEEL then
      (int16OfNat ((mouse.MouseData &&& 0xFFFF0000) >>> 16) : ℚ) / 120
    else 1
  let xy : Int × Int :=
    match MousePosition getCursorPos with
    | .error _ => (mouse.PtX, mouse.PtY)
    | .ok (x, y) => (x, y)
  { MType := w
    X := xy.1
    Y := xy.2
    Wheel := wheel
    Injected := mouse.Flags &&& 1 != 0
    cancelled := false }

/-! ## Hook procedure control flow

The Go hook closures return 1 to suppress an event and otherwise return
CallNextHookEx, passing the event down the OS hook chain. HookOutcome
records whether the suppression value was returned, how many times
CallNextHookEx ran, and the event value after the user callback saw it. -/

structure HookOutcome (ev : Type) where
  suppressed : Bool
  nextCalls : Nat
  event : Option ev
  deriving Repr

/-- The WH_KEYBOARD_LL hook procedure installed by hookKeyboard in
messageLoop.loop, with the captured keyboardCallback as a parameter. -/
def hookKeyboardProc (keyboardCallback : Option (KeyboardEvent → KeyboardEvent))
    (code : Int) (kb : KBDLLHOOKSTRUCT) : HookOutcome KeyboardEvent :=
  if 0 ≤ code then
    let e := keyboardEventOf kb
    let e :=
      match keyboardCallback with
      | some f => f e
      | none => e
    if e.cancelled then
      { suppressed := true, nextCalls := 0, event := some e }
    else
      { suppressed := false, nextCalls := 1, event := some e }
  else
    { suppressed := false, nextCalls := 1, event := none }

/-- The WH_MOUSE_LL hook procedure installed by hookMouse in
messageLoop.loop, with the captured mouseCallback and the GetCursorPos
query result as parameters. -/
def hookMouseProc (mouseCallback : Option (MouseEvent → MouseEvent))
    (code : Int) (w : Nat) (mouse : MSLLHOOKSTRUCT)
    (getCursorPos : Option (Int × Int)) : HookOutcome MouseEvent :=
  if 0 ≤ code then
    let e := mouseEventOf w mouse getCursorPos
    let e :=
      match mouseCallback with
      | some f => f e
      | none => e
    if e.cancelled then
      { suppressed := true, nextCalls := 0, event := some e }
    else
      { suppressed := false, nextCalls := 1, event := some e }
  else
    { suppressed := false, nextCalls := 1, event := none }

/-! ## Hook state machine

hookKeyboard, hookMouse and hookClipboard are the per-category
reconciliation closures of messageLoop.loop. Each compares callback
presence (want) against handle presence (have, handle nonzero), and
installs or removes the OS hook accordingly. The handle a successful
install would return is passed in as newHandle; the OS calls issued are
returned as a trace. -/

inductive OSCall where
  | installKeyboard
  | removeKeyboard
  | installMouse
  | removeMouse
  | installClipboard
  | removeClipboard
  deriving Repr, DecidableEq

/-- Go hookKeyboard: reconcile the keyboard hook handle against
keyboard-callback presence. -/
def hookKeyboard (wantCallback : Bool) (keyboardHook : Nat) (newHandle : Nat) :
    Nat × List OSCall :=
  let wantHook := wantCallback
  let haveHook := keyboardHook != 0
  if wantHook == haveHook then
    (keyboardHook, [])
  else if wantHook then
    (newHandle, [.installKeyboard])
  else if keyboardHook != 0 then
    (0, [.removeKeyboard])
  else
    (keyboardHook, [])

/-- Go hookMouse: reconcile the mouse hook handle against mouse-callback
presence. -/
def hookMouse (wantCallback : Bool) (mouseHook : Nat) (newHandle : Nat) :
    Nat × List OSCall :=
  let wantHook := wantCallback
  let haveHook := mouseHook != 0
  if wantHook == haveHook then
    (mouseHook, [])
  else if wantHook then
    (newHandle, [.installMouse])
  else if mouseHook != 0 then
    (0, [.removeMouse])
  else
    (mouseHook, [])

/-- Go hookClipboard: reconcile the clipboard listener window against
clipboard-callback presence. The removal branch of the source has no
nonzero guard. -/
def hookClipboard (wantCallback : Bool) (clipboardWindow : Nat) (newWindow : Nat) :
    Nat × List OSCall :=
  let wantHook := wantCallback
  let haveHook := clipboardWindow != 0
  if wantHook == haveHook then
    (clipboardWindow, [])
  else if wantHook then
    (newWindow, [.installClipboard])
  else
    (0, [.removeClipboard])

/-! ## Callback snapshots and the registration facade -/

/-- Go struct events: the full three-field callback snapshot sent over the
newEvents channel. The clipboard callback takes no event, so only its
presence matters and it is modelled as Option Unit. -/
structure events where
  keyboard : Option (KeyboardEvent → KeyboardEvent)
  mouse : Option (MouseEvent → MouseEvent)
  clipboard : Option Unit

/-- Go (e *events) allNil(). -/
def events.allNil (e : events) : Bool :=
  e.keyboard.isNone && e.mouse.isNone && e.clipboard.isNone

/-- The caller-side state of the Go messageLoop struct: the start-once
flag and the three desired-callback fields. The channel itself is
modelled by returning the snapshot a registration call sends on it. -/
structure messageLoop where
  running : Bool
  keyboardEvent : Option (KeyboardEvent → KeyboardEvent)
  mouseEvent : Option (MouseEvent → MouseEvent)
  clipboardEvent : Option Unit

/-- Go newMessageLoop(). -/
def newMessageLoop : messageLoop :=
  { running := false, keyboardEvent := none, mouseEvent := none,
    clipboardEvent := none }

/-- Go (m *messageLoop) startLoop(): marks the pump goroutine running.
The start-once guard means the flag only ever turns true. -/
def messageLoop.startLoop (m : messageLoop) : messageLoop :=
  { m with running := true }

/-- Go (m *messageLoop) updateEvents(): starts the loop if needed, then
sends the full current three-field snapshot on the newEvents channel.
The sent snapshot is returned alongside the new caller-side state. -/
def messageLoop.updateEvents (m : messageLoop) : messageLoop × events :=
  let m := m.startLoop
  (m, { keyboard := m.keyboardEvent, mouse := m.mouseEvent,
        clipboard := m.clipboardEvent })

/-- Go (m *messageLoop) setKeyboardEvent(f). -/
def messageLoop.setKeyboardEvent (m : messageLoop)
    (f : Option (KeyboardEvent → KeyboardEvent)) : messageLoop × events :=
  messageLoop.updateEvents { m with keyboardEvent := f }

/-- Go (m *messageLoop) setMouseEvent(f). -/
def messageLoop.setMouseEvent (m : messageLoop)
    (f : Option (MouseEvent → MouseEvent)) : messageLoop × events :=
  messageLoop.updateEvents { m with mouseEvent := f }

/-- Go (m *messageLoop) setClipboardEvent(f). -/
def messageLoop.setClipboardEvent (m : messageLoop) (f : Option Unit) :
    messageLoop × events :=
  messageLoop.updateEvents { m with clipboardEvent := f }

/-! ## The pump loop -/

/-- The loop-local state of messageLoop.loop: the currently installed
callbacks and the three OS handles (zero meaning absent). -/
structure LoopState where
  keyboardCallback : Option (KeyboardEvent → KeyboardEvent)
  mouseCallback : Option (MouseEvent → MouseEvent)
  clipboardCallback : Option Unit
  keyboardHook : Nat
  mouseHook : Nat
  clipboardWindow : Nat

/-- The loop starts with no callbacks and no handles. -/
def LoopState.initial : LoopState :=
  { keyboardCallback := none, mouseCallback := none, clipboardCallback := none,
    keyboardHook := 0, mouseHook := 0, clipboardWindow := 0 }

/-- The reconciliation block of the snapshot branch of messageLoop.loop:
assigns the snapshot to the loop-local callbacks and runs hookMouse,
hookKeyboard, hookClipboard in source order. newMouse, newKeyboard and
newClipboard are the handles the OS would return for a fresh install. -/
def reconcile (s : LoopState) (ev : events)
    (newMouse newKeyboard newClipboard : Nat) : LoopState × List OSCall :=
  let s := { s with keyboardCallback := ev.keyboard,
                    mouseCallback := ev.mouse,
                    clipboardCallback := ev.clipboard }
  let m := hookMouse s.mouseCallback.isSome s.mouseHook newMouse
  let k := hookKeyboard s.keyboardCallback.isSome s.keyboardHook newKeyboard
  let c := hookClipboard s.clipboardCallback.isSome s.clipboardWindow newClipboard
  ({ s with mouseHook := m.1, keyboardHook := k.1, clipboardWindow := c.1 },
   m.2 ++ k.2 ++ c.2)

/-- One iteration of the select loop of messageLoop.loop when snapshots
are pending on the newEvents channel. The inner wait loop discards every
leading all-nil snapshot without touching callbacks or hooks; if a
snapshot with at least one callback is reached it is assigned and the
hooks are reconciled, otherwise the thread blocks on the channel with the
state unchanged. -/
def pumpStep (s : LoopState) (pending : List events)
    (newMouse newKeyboard newClipboard : Nat) : LoopState × List OSCall :=
  match pending.dropWhile events.allNil with
  | [] => (s, [])
  | ev :: _ => reconcile s ev newMouse newKeyboard newClipboard

/-! ## Screen capture of monitor hulls

CaptureScreen and friends are thin OS wrappers; what the pure logic of
CaptureMonitors decides is WHICH rectangle gets captured. The embedding
therefore returns the Rectangle handed to CaptureScreenRect; the pixel
buffer itself (and the empty image accompanying the error) lives outside
the embedding. -/

structure Rectangle where
  X : Int
  Y : Int
  Width : Int
  Height : Int
  deriving Repr, DecidableEq

structure Monitor extends Rectangle where
  WorkArea : Rectangle
  Primary : Bool
  deriving Repr, DecidableEq

/-- One iteration of the hull loop in Go CaptureMonitors, updating the
running (left, top, right, bottom) bounds. -/
def hullStep (h : Int × Int × Int × Int) (m : Monitor) : Int × Int × Int × Int :=
  let left := m.X
  let top := m.Y
  let right := m.X + m.Width
  let bottom := m.Y + m.Height
  (if left < h.1 then left else h.1,
   if top < h.2.1 then top else h.2.1,
   if right > h.2.2.1 then right else h.2.2.1,
   if bottom > h.2.2.2 then bottom else h.2.2.2)

/-- Go CaptureMonitors: error on an empty list (the source misspells the
message as "now monitor given"), otherwise capture the bounding-box hull
of all the given monitors. The loop in the source seeds the hull with
monitors[0] and then folds over the whole list, monitors[0] included. -/
def CaptureMonitors (monitors : List Monitor) : Except String Rectangle :=
  match monitors with
  | [] => .error "now monitor given"
  | m0 :: _ =>
    let h := monitors.foldl hullStep
      (m0.X, m0.Y, m0.X + m0.Width, m0.Y + m0.Height)
    .ok { X := h.1, Y := h.2.1, Width := h.2.2.1 - h.1,
          Height := h.2.2.2 - h.2.1 }

/-! ## Typing text with Alt+Numpad sequences

TypeWithDelay synthesizes each character as Alt held down, numpad 0, the
decimal digits of the code point on the numpad, Alt released, all sent in
one SendInput call; carriage returns and backspaces go through PressKey.
The OS collaborators are parameters: sc models MapVirtualKey (virtual key
to scan code) and blocked models SendInput returning 0 for a call. The
produced trace records each SendInput call and each sleep (in
nanoseconds, matching Go time.Duration units). -/

structure KEYBDINPUT where
  Vk : Nat
  Scan : Nat
  Flags : Nat
  deriving Repr, DecidableEq

inductive TraceItem where
  | send (inputs : List KEYBDINPUT)
  | sleep (nanoseconds : Nat)
  deriving Repr, DecidableEq

def errBlocked : String := "SendInput returned 0, meaning input was blocked"

/-- The upDown helper in Go TypeWithDelay: a scan-code key-down and
key-up input pair for the given virtual key. -/
def upDown (sc : Nat → Nat) (vk : Nat) : KEYBDINPUT × KEYBDINPUT :=
  ({ Vk := 0, Scan := sc vk, Flags := KEYEVENTF_SCANCODE },
   { Vk := 0, Scan := sc vk, Flags := KEYEVENTF_SCANCODE ||| KEYEVENTF_KEYUP })

/-- The SendInput call one ordinary character generates: Alt down,
numpad 0 down and up, then down and up for each decimal digit of the code
point (the digits of fmt.Sprint, mapped back to numbers as in the Go
loop), then Alt up. The w32 numpad key codes are consecutive, so
nums[d] of the source is upDown of VK_NUMPAD0 + d. -/
def typeCharKeys (sc : Nat → Nat) (r : Char) : List KEYBDINPUT :=
  let alt := upDown sc VK_LMENU
  let num := fun d => upDown sc (VK_NUMPAD0 + d)
  [alt.1, (num 0).1, (num 0).2]
    ++ ((Nat.toDigits 10 r.toNat).map (fun c => c.toNat - 48)).flatMap
        (fun d => [(num d).1, (num d).2])
    ++ [alt.2]

/-- Go PressKey: one SendInput with the bare virtual key; an error when
the call reports the input blocked. -/
def PressKey (blocked : List KEYBDINPUT → Bool) (key : Nat) :
    List TraceItem × Except String Unit :=
  let inputs := [{ Vk := key, Scan := 0, Flags := 0 }]
  ([.send inputs], if blocked inputs then .error errBlocked else .ok ())

/-- First normalization pass of Go TypeWithDelay: strings.Replace of
CRLF by CR, left to right. -/
def replaceCRLF : List Char → List Char
  | [] => []
  | '\r' :: '\n' :: rest => '\r' :: replaceCRLF rest
  | c :: rest => c :: replaceCRLF rest

/-- Both normalization passes: CRLF to CR, then LF to CR. -/
def unifyLineBreaks (s : List Char) : List Char :=
  (replaceCRLF s).map (fun c => if c = '\n' then '\r' else c)

/-- The body of one iteration of the character loop of Go TypeWithDelay:
a carriage return or backspace goes through PressKey, any other
character is sent as its Alt+Numpad sequence in one SendInput call. -/
def typeCharStep (sc : Nat → Nat) (blocked : List KEYBDINPUT → Bool)
    (r : Char) : List TraceItem × Except String Unit :=
  if r = '\r' then PressKey blocked VK_RETURN
  else if r = '\x08' then PressKey blocked VK_BACK
  else
    let keys := typeCharKeys sc r
    ([.send keys], if blocked keys then .error errBlocked else .ok ())

/-- The character loop of Go TypeWithDelay: a blocked send returns the
error at once, otherwise the loop sleeps for the given delay and
continues with the next character. -/
def typeChars (sc : Nat → Nat) (blocked : List KEYBDINPUT → Bool)
    (delay : Nat) : List Char → List TraceItem × Except String Unit
  | [] => ([], .ok ())
  | r :: rest =>
    let step := typeCharStep sc blocked r
    match step.2 with
    | .error e => (step.1, .error e)
    | .ok _ =>
      let tail := typeChars sc blocked delay rest
      (step.1 ++ .sleep delay :: tail.1, tail.2)

/-- Go TypeWithDelay: normalize line breaks, then run the character
loop. -/
def TypeWithDelay (sc : Nat → Nat) (blocked : List KEYBDINPUT → Bool)
    (s : List Char) (delay : Nat) : List TraceItem × Except String Unit :=
  typeChars sc blocked delay (unifyLineBreaks s)

/-- Go Type (the name Type is reserved in Lean): TypeWithDelay with
delay 1, the smallest nonzero time.Duration of one nanosecond. -/
def Type_ (sc : Nat → Nat) (blocked : List KEYBDINPUT → Bool)
    (s : List Char) : List TraceItem × Except String Unit :=
  TypeWithDelay sc blocked s 1

/-! ## Helper lemmas -/

/-- One character step emits exactly one SendInput trace item, never a
sleep. -/
lemma typeCharStep_send (sc : Nat → Nat) (blocked : List KEYBDINPUT → Bool)
    (r : Char) : ∃ ins, (typeCharStep sc blocked r).1 = [TraceItem.send ins] := by
  unfold typeCharStep PressKey
  split
  · exact ⟨_, rfl⟩
  · split
    · exact ⟨_, rfl⟩
    · exact ⟨_, rfl⟩

/-- Every sleep item the character loop emits carries the configured
delay. -/
lemma typeChars_sleep_eq (sc : Nat → Nat) (blocked : List KEYBDINPUT → Bool)
    (delay : Nat) :
    ∀ (l : List Char) (d : Nat),
      TraceItem.sleep d ∈ (typeChars sc blocked delay l).1 → d = delay := by
  intro l
  induction l with
  | nil => intro d hd; simp [typeChars] at hd
  | cons r rest ih =>
    intro d hd
    simp only [typeChars] at hd
    obtain ⟨ins, hins⟩ := typeCharStep_send sc blocked r
    rcases hres : (typeCharStep sc blocked r).2 with e | u
    · rw [hres] at hd
      simp only [hins] at hd
      simp at hd
    · rw [hres] at hd
      simp only [hins] at hd
      simp only [List.cons_append, List.nil_append, List.mem_cons] at hd
      rcases hd with hd | hd | hd
      · exact absurd hd (by simp)
      · exact (TraceItem.sleep.injEq d delay).mp (by rw [hd]) |>.symm ▸ rfl
      · exact ih d hd

/-! ## Claim theorems -/

/-- C6: Cancel on a KeyboardEvent or a MouseEvent sets the cancellation
flag, is idempotent (a second call yields the same value), and leaves
every other field at its construction-time value. -/
theorem cancel_sets_flag_only (e : KeyboardEvent) (me : MouseEvent) :
    e.Cancel.cancelled = true
    ∧ e.Cancel.Cancel = e.Cancel
    ∧ e.Cancel.Key = e.Key
    ∧ e.Cancel.Down = e.Down
    ∧ e.Cancel.Injected = e.Injected
    ∧ me.Cancel.cancelled = true
    ∧ me.Cancel.Cancel = me.Cancel
    ∧ me.Cancel.MType = me.MType
    ∧ me.Cancel.X = me.X
    ∧ me.Cancel.Y = me.Y
    ∧ me.Cancel.Wheel = me.Wheel
    ∧ me.Cancel.Injected = me.Injected :=
  ⟨rfl, rfl, rfl, rfl, rfl, rfl, rfl, rfl, rfl, rfl, rfl, rfl⟩

/-- C8: the KeyboardEvent built from a raw low-level hook record has Down
true exactly when bit 0x80 of the raw flags is clear, Injected true
exactly when bit 0x10 is set, and Key the virtual key code truncated to
16 bits. -/
theorem keyboard_event_from_raw_record (kb : KBDLLHOOKSTRUCT) :
    ((keyboardEventOf kb).Down = true ↔ kb.Flags &&& 0x80 = 0)
    ∧ ((keyboardEventOf kb).Injected = true ↔ kb.Flags &&& 0x10 ≠ 0)
    ∧ (keyboardEventOf kb).Key = kb.VkCode % 65536 := by
  refine ⟨?_, ?_, rfl⟩ <;> simp [keyboardEventOf]

/-- C2 failing input: the mouse hook initializes the wheel field to 1.0
rather than 0, so a plain mouse-move record yields Wheel equal to 1, not
the 0 the documentation of MouseEvent promises for non-wheel events. -/
theorem mouse_move_wheel_is_one :
    (mouseEventOf WM_MOUSEMOVE ⟨0, 3, 4, 0⟩ (some (5, 6))).Wheel = 1
    ∧ (mouseEventOf WM_MOUSEMOVE ⟨0, 3, 4, 0⟩ (some (5, 6))).Wheel ≠ 0 := by
  constructor
  · rfl
  · intro h
    rw [show (mouseEventOf WM_MOUSEMOVE ⟨0, 3, 4, 0⟩ (some (5, 6))).Wheel = 1
          from rfl] at h
    exact one_ne_zero h

/-- C5: the constructed MouseEvent takes its coordinates from the
cursor-position query when it succeeds and falls back to the raw hook
record coordinates when it fails; in either case the hook hands the
callback a constructed event, never the query error. -/
theorem mouse_coords_query_fallback (w : Nat) (mouse : MSLLHOOKSTRUCT)
    (p : Int × Int) (g : MouseEvent → MouseEvent) (code : Int)
    (h : 0 ≤ code) :
    ((mouseEventOf w mouse (some p)).X = p.1
      ∧ (mouseEventOf w mouse (some p)).Y = p.2)
    ∧ ((mouseEventOf w mouse none).X = mouse.PtX
      ∧ (mouseEventOf w mouse none).Y = mouse.PtY)
    ∧ ∀ q : Option (Int × Int),
        (hookMouseProc (some g) code w mouse q).event
          = some (g (mouseEventOf w mouse q)) := by
  obtain ⟨a, b⟩ := p
  refine ⟨⟨rfl, rfl⟩, ⟨rfl, rfl⟩, ?_⟩
  intro q
  simp only [hookMouseProc, if_pos h]
  by_cases hc : (g (mouseEventOf w mouse q)).cancelled <;> simp [hc]

/-- C5 witness: a concrete move record with a succeeding and a failing
cursor query. -/
theorem mouse_coords_query_fallback_witness :
    (mouseEventOf 0x0200 ⟨0, 3, 4, 0⟩ (some (5, 6))).X = 5
    ∧ (mouseEventOf 0x0200 ⟨0, 3, 4, 0⟩ none).X = 3
    ∧ (hookMouseProc (some id) 0 0x0200 ⟨0, 3, 4, 0⟩ none).event
        = some (id (mouseEventOf 0x0200 ⟨0, 3, 4, 0⟩ none)) :=
  ⟨(mouse_coords_query_fallback 0x0200 ⟨0, 3, 4, 0⟩ (5, 6) id 0
      (by norm_num)).1.1,
   (mouse_coords_query_fallback 0x0200 ⟨0, 3, 4, 0⟩ (5, 6) id 0
      (by norm_num)).2.1.1,
   (mouse_coords_query_fallback 0x0200 ⟨0, 3, 4, 0⟩ (5, 6) id 0
      (by norm_num)).2.2 none⟩

/-- C7: each registration call updates only its own field of the
desired-callback record, marks the pump running, and sends the full
three-field snapshot over the handoff channel. -/
theorem registration_updates_own_field (m : messageLoop)
    (f : Option (KeyboardEvent → KeyboardEvent))
    (g : Option (MouseEvent → MouseEvent)) (c : Option Unit) :
    ((m.setKeyboardEvent f).1.keyboardEvent = f
      ∧ (m.setKeyboardEvent f).1.mouseEvent = m.mouseEvent
      ∧ (m.setKeyboardEvent f).1.clipboardEvent = m.clipboardEvent
      ∧ (m.setKeyboardEvent f).2
          = { keyboard := f, mouse := m.mouseEvent,
              clipboard := m.clipboardEvent })
    ∧ ((m.setMouseEvent g).1.mouseEvent = g
      ∧ (m.setMouseEvent g).1.keyboardEvent = m.keyboardEvent
      ∧ (m.setMouseEvent g).1.clipboardEvent = m.clipboardEvent
      ∧ (m.setMouseEvent g).2
          = { keyboard := m.keyboardEvent, mouse := g,
              clipboard := m.clipboardEvent })
    ∧ ((m.setClipboardEvent c).1.clipboardEvent = c
      ∧ (m.setClipboardEvent c).1.keyboardEvent = m.keyboardEvent
      ∧ (m.setClipboardEvent c).1.mouseEvent = m.mouseEvent
      ∧ (m.setClipboardEvent c).2
          = { keyboard := m.keyboardEvent, mouse := m.mouseEvent,
              clipboard := c }) :=
  ⟨⟨rfl, rfl, rfl, rfl⟩, ⟨rfl, rfl, rfl, rfl⟩, ⟨rfl, rfl, rfl, rfl⟩⟩

/-- C9: Type is TypeWithDelay at delay 1 (one nanosecond, the smallest
nonzero Go time.Duration): the traces and results coincide for every
string and every OS behavior, and every sleep Type emits lasts exactly
one nanosecond. -/
theorem type_equals_typeWithDelay_one (sc : Nat → Nat)
    (blocked : List KEYBDINPUT → Bool) (s : List Char) :
    Type_ sc blocked s = TypeWithDelay sc blocked s 1
    ∧ ∀ d, TraceItem.sleep d ∈ (Type_ sc blocked s).1 → d = 1 :=
  ⟨rfl, fun d hd => typeChars_sleep_eq sc blocked 1 (unifyLineBreaks s) d hd⟩

/-- C9 witness: typing the single letter A sleeps exactly one nanosecond
after the letter. -/
theorem type_equals_typeWithDelay_one_witness :
    Type_ (fun _ => 0) (fun _ => false) [Char.ofNat 65]
      = TypeWithDelay (fun _ => 0) (fun _ => false) [Char.ofNat 65] 1
    ∧ (1 : Nat) = 1 :=
  ⟨(type_equals_typeWithDelay_one (fun _ => 0) (fun _ => false)
      [Char.ofNat 65]).1,
   (type_equals_typeWithDelay_one (fun _ => 0) (fun _ => false)
      [Char.ofNat 65]).2 1 (by decide)⟩

/-- C3: with non-negative code, a hook invocation whose callback sets the
cancellation flag returns the suppression value without passing the event
down the hook chain; one whose callback leaves the flag clear calls
CallNextHookEx exactly once. -/
theorem hook_cancellation_decides_suppression
    (f : KeyboardEvent → KeyboardEvent) (g : MouseEvent → MouseEvent)
    (code : Int) (kb : KBDLLHOOKSTRUCT) (w : Nat) (mouse : MSLLHOOKSTRUCT)
    (q : Option (Int × Int)) (h : 0 ≤ code) :
    (((f (keyboardEventOf kb)).cancelled = true →
        (hookKeyboardProc (some f) code kb).suppressed = true
        ∧ (hookKeyboardProc (some f) code kb).nextCalls = 0)
      ∧ ((f (keyboardEventOf kb)).cancelled = false →
        (hookKeyboardProc (some f) code kb).suppressed = false
        ∧ (hookKeyboardProc (some f) code kb).nextCalls = 1))
    ∧ (((g (mouseEventOf w mouse q)).cancelled = true →
        (hookMouseProc (some g) code w mouse q).suppressed = true
        ∧ (hookMouseProc (some g) code w mouse q).nextCalls = 0)
      ∧ ((g (mouseEventOf w mouse q)).cancelled = false →
        (hookMouseProc (some g) code w mouse q).suppressed = false
        ∧ (hookMouseProc (some g) code w mouse q).nextCalls = 1)) := by
  refine ⟨⟨?_, ?_⟩, ⟨?_, ?_⟩⟩ <;> intro hc <;>
    simp [hookKeyboardProc, hookMouseProc, if_pos h, hc]

/-- C3 witness: a cancelling keyboard callback suppresses, an identity
mouse callback passes the event down the chain exactly once. -/
theorem hook_cancellation_witness :
    (hookKeyboardProc (some KeyboardEvent.Cancel) 0 ⟨65, 0⟩).suppressed = true
    ∧ (hookKeyboardProc (some KeyboardEvent.Cancel) 0 ⟨65, 0⟩).nextCalls = 0
    ∧ (hookMouseProc (some id) 0 0x0200 ⟨0, 3, 4, 0⟩ none).suppressed = false
    ∧ (hookMouseProc (some id) 0 0x0200 ⟨0, 3, 4, 0⟩ none).nextCalls = 1 :=
  ⟨((hook_cancellation_decides_suppression KeyboardEvent.Cancel id 0 ⟨65, 0⟩
      0x0200 ⟨0, 3, 4, 0⟩ none (by norm_num)).1.1 rfl).1,
   ((hook_cancellation_decides_suppression KeyboardEvent.Cancel id 0 ⟨65, 0⟩
      0x0200 ⟨0, 3, 4, 0⟩ none (by norm_num)).1.1 rfl).2,
   ((hook_cancellation_decides_suppression KeyboardEvent.Cancel id 0 ⟨65, 0⟩
      0x0200 ⟨0, 3, 4, 0⟩ none (by norm_num)).2.2 rfl).1,
   ((hook_cancellation_decides_suppression KeyboardEvent.Cancel id 0 ⟨65, 0⟩
      0x0200 ⟨0, 3, 4, 0⟩ none (by norm_num)).2.2 rfl).2⟩

/-- C4: one reconciliation run per category is a no-op when callback
presence equals handle presence, installs and records the handle when a
callback is present without a handle, removes and clears when a handle is
present without a callback; with a successful install, re-registering
issues no further OS calls. -/
theorem reconcile_state_machine (want : Bool) (h n : Nat) :
    (want = (h != 0) →
      hookKeyboard want h n = (h, []) ∧ hookMouse want h n = (h, [])
      ∧ hookClipboard want h n = (h, []))
    ∧ (want = true → h = 0 →
      hookKeyboard want h n = (n, [.installKeyboard])
      ∧ hookMouse want h n = (n, [.installMouse])
      ∧ hookClipboard want h n = (n, [.installClipboard]))
    ∧ (want = false → h ≠ 0 →
      hookKeyboard want h n = (0, [.removeKeyboard])
      ∧ hookMouse want h n = (0, [.removeMouse])
      ∧ hookClipboard want h n = (0, [.removeClipboard]))
    ∧ (n ≠ 0 →
      (hookKeyboard true (hookKeyboard true h n).1 n).2 = []
      ∧ (hookMouse true (hookMouse true h n).1 n).2 = []
      ∧ (hookClipboard true (hookClipboard true h n).1 n).2 = []) := by
  refine ⟨?_, ?_, ?_, ?_⟩
  · rintro rfl
    simp [hookKeyboard, hookMouse, hookClipboard]
  · rintro rfl rfl
    simp [hookKeyboard, hookMouse, hookClipboard]
  · rintro rfl h0
    simp [hookKeyboard, hookMouse, hookClipboard, h0]
  · intro hn
    by_cases h0 : h = 0 <;>
      simp [hookKeyboard, hookMouse, hookClipboard, h0, hn]

/-- C4 witness: concrete install, remove, aligned no-op and
re-registration runs. -/
theorem reconcile_state_machine_witness :
    hookKeyboard true 0 1 = (1, [OSCall.installKeyboard])
    ∧ hookMouse false 1 1 = (0, [OSCall.removeMouse])
    ∧ hookClipboard true 1 1 = (1, [])
    ∧ (hookClipboard true (hookClipboard true 0 1).1 1).2 = [] :=
  ⟨((reconcile_state_machine true 0 1).2.1 rfl rfl).1,
   ((reconcile_state_machine false 1 1).2.2.1 rfl one_ne_zero).2.1,
   ((reconcile_state_machine true 1 1).1 rfl).2.2,
   ((reconcile_state_machine true 0 1).2.2.2 one_ne_zero).2.2⟩

/-! Per-category handle presence after one reconciliation, assuming the
OS install returns a nonzero handle. -/

lemma hookKeyboard_handle_iff (want : Bool) (h n : Nat) (hn : n ≠ 0) :
    ((hookKeyboard want h n).1 ≠ 0 ↔ want = true) := by
  cases want <;> by_cases h0 : h = 0 <;> simp [hookKeyboard, h0, hn]

lemma hookMouse_handle_iff (want : Bool) (h n : Nat) (hn : n ≠ 0) :
    ((hookMouse want h n).1 ≠ 0 ↔ want = true) := by
  cases want <;> by_cases h0 : h = 0 <;> simp [hookMouse, h0, hn]

lemma hookClipboard_handle_iff (want : Bool) (h n : Nat) (hn : n ≠ 0) :
    ((hookClipboard want h n).1 ≠ 0 ↔ want = true) := by
  cases want <;> by_cases h0 : h = 0 <;> simp [hookClipboard, h0, hn]

/-- A pump-loop state with a keyboard callback installed and its hook
handle present. -/
def hookedKeyboardState : LoopState :=
  { keyboardCallback := some (fun e => e), mouseCallback := none,
    clipboardCallback := none, keyboardHook := 1, mouseHook := 0,
    clipboardWindow := 0 }

/-- The snapshot a SetOn call sends after all three callbacks were set to
nil. -/
def allNilSnapshot : events :=
  { keyboard := none, mouse := none, clipboard := none }

/-- C1 counterexample: after the pump-loop iteration that receives the
all-nil snapshot, the keyboard hook handle is still present although the
snapshot has no keyboard callback — the wait loop discards all-nil
snapshots without reconciling, so setting all three callbacks to nil does
not remove the installed hooks. -/
theorem all_nil_snapshot_leaves_hook_installed :
    ¬ (((pumpStep hookedKeyboardState [allNilSnapshot] 1 1 1).1.keyboardHook ≠ 0)
        ↔ allNilSnapshot.keyboard.isSome = true) := by
  intro hiff
  have h1 : (pumpStep hookedKeyboardState [allNilSnapshot] 1 1 1).1.keyboardHook
      = 1 := rfl
  have h2 := hiff.mp (by rw [h1]; exact one_ne_zero)
  simp [allNilSnapshot] at h2

/-- C1 amended: when the pump loop receives a snapshot holding at least
one callback (and the OS installs succeed with nonzero handles), one
iteration reconciles every category to handle present exactly when the
snapshot's callback is present, and installs the snapshot's callbacks. -/
theorem pump_reconciles_nonnil_snapshot (s : LoopState) (ev : events)
    (rest : List events) (nm nk nc : Nat)
    (hm : nm ≠ 0) (hk : nk ≠ 0) (hc : nc ≠ 0) (hev : ev.allNil = false) :
    ((pumpStep s (ev :: rest) nm nk nc).1.keyboardHook ≠ 0
      ↔ ev.keyboard.isSome = true)
    ∧ ((pumpStep s (ev :: rest) nm nk nc).1.mouseHook ≠ 0
      ↔ ev.mouse.isSome = true)
    ∧ ((pumpStep s (ev :: rest) nm nk nc).1.clipboardWindow ≠ 0
      ↔ ev.clipboard.isSome = true)
    ∧ (pumpStep s (ev :: rest) nm nk nc).1.keyboardCallback = ev.keyboard
    ∧ (pumpStep s (ev :: rest) nm nk nc).1.mouseCallback = ev.mouse
    ∧ (pumpStep s (ev :: rest) nm nk nc).1.clipboardCallback = ev.clipboard := by
  have hstep : pumpStep s (ev :: rest) nm nk nc = reconcile s ev nm nk nc := by
    simp [pumpStep, List.dropWhile, hev]
  rw [hstep]
  exact ⟨hookKeyboard_handle_iff _ _ _ hk, hookMouse_handle_iff _ _ _ hm,
    hookClipboard_handle_iff _ _ _ hc, rfl, rfl, rfl⟩

/-- C1 amended witness: a snapshot registering keyboard and clipboard
callbacks on a fresh loop state. -/
theorem pump_reconciles_nonnil_snapshot_witness :
    ((pumpStep LoopState.initial
        [{ keyboard := some (fun e => e), mouse := none,
           clipboard := some () }] 1 1 1).1.keyboardHook ≠ 0
      ↔ (some (fun e : KeyboardEvent => e)).isSome = true)
    ∧ ((pumpStep LoopState.initial
        [{ keyboard := some (fun e => e), mouse := none,
           clipboard := some () }] 1 1 1).1.mouseHook ≠ 0
      ↔ (none : Option (MouseEvent → MouseEvent)).isSome = true) :=
  ⟨(pump_reconciles_nonnil_snapshot LoopState.initial
      { keyboard := some (fun e => e), mouse := none, clipboard := some () }
      [] 1 1 1 one_ne_zero one_ne_zero one_ne_zero rfl).1,
   (pump_reconciles_nonnil_snapshot LoopState.initial
      { keyboard := some (fun e => e), mouse := none, clipboard := some () }
      [] 1 1 1 one_ne_zero one_ne_zero one_ne_zero rfl).2.1⟩

/-! Characterizing the hull fold of CaptureMonitors. -/

/-- The running minimum the hull loop keeps for a component picked by f. -/
def foldlMin (f : Monitor → Int) (a : Int) (l : List Monitor) : Int :=
  l.foldl (fun x m => if f m < x then f m else x) a

/-- The running maximum the hull loop keeps for a component picked by f. -/
def foldlMax (f : Monitor → Int) (a : Int) (l : List Monitor) : Int :=
  l.foldl (fun x m => if f m > x then f m else x) a

lemma foldlMin_spec (f : Monitor → Int) :
    ∀ (l : List Monitor) (a : Int),
      foldlMin f a l ≤ a ∧ (∀ m ∈ l, foldlMin f a l ≤ f m)
      ∧ (foldlMin f a l = a ∨ ∃ m ∈ l, foldlMin f a l = f m)
  | [], a => by simp [foldlMin]
  | m :: t, a => by
    have ih := foldlMin_spec f t (if f m < a then f m else a)
    have hba : (if f m < a then f m else a) ≤ a := by split <;> omega
    have hbm : (if f m < a then f m else a) ≤ f m := by split <;> omega
    have hcons : foldlMin f a (m :: t) = foldlMin f (if f m < a then f m else a) t :=
      rfl
    rw [hcons]
    refine ⟨le_trans ih.1 hba, ?_, ?_⟩
    · intro m2 hm2
      rcases List.mem_cons.mp hm2 with h | h
      · subst h
        exact le_trans ih.1 hbm
      · exact ih.2.1 m2 h
    · rcases ih.2.2 with h | ⟨m2, hm2, he⟩
      · by_cases hlt : f m < a
        · exact Or.inr ⟨m, List.mem_cons_self _ _, by rw [h, if_pos hlt]⟩
        · exact Or.inl (by rw [h, if_neg hlt])
      · exact Or.inr ⟨m2, List.mem_cons_of_mem _ hm2, he⟩

lemma foldlMax_spec (f : Monitor → Int) :
    ∀ (l : List Monitor) (a : Int),
      a ≤ foldlMax f a l ∧ (∀ m ∈ l, f m ≤ foldlMax f a l)
      ∧ (foldlMax f a l = a ∨ ∃ m ∈ l, foldlMax f a l = f m)
  | [], a => by simp [foldlMax]
  | m :: t, a => by
    have ih := foldlMax_spec f t (if f m > a then f m else a)
    have hba : a ≤ (if f m > a then f m else a) := by split <;> omega
    have hbm : f m ≤ (if f m > a then f m else a) := by split <;> omega
    have hcons : foldlMax f a (m :: t) = foldlMax f (if f m > a then f m else a) t :=
      rfl
    rw [hcons]
    refine ⟨le_trans hba ih.1, ?_, ?_⟩
    · intro m2 hm2
      rcases List.mem_cons.mp hm2 with h | h
      · subst h
        exact le_trans hbm ih.1
      · exact ih.2.1 m2 h
    · rcases ih.2.2 with h | ⟨m2, hm2, he⟩
      · by_cases hgt : f m > a
        · exact Or.inr ⟨m, List.mem_cons_self _ _, by rw [h, if_pos hgt]⟩
        · exact Or.inl (by rw [h, if_neg hgt])
      · exact Or.inr ⟨m2, List.mem_cons_of_mem _ hm2, he⟩

lemma hullFold_left : ∀ (l : List Monitor) (acc : Int × Int × Int × Int),
    (l.foldl hullStep acc).1 = foldlMin (fun m => m.X) acc.1 l
  | [], _ => rfl
  | m :: t, acc => by
    have := hullFold_left t (hullStep acc m)
    simpa [foldlMin, hullStep] using this

lemma hullFold_top : ∀ (l : List Monitor) (acc : Int × Int × Int × Int),
    (l.foldl hullStep acc).2.1 = foldlMin (fun m => m.Y) acc.2.1 l
  | [], _ => rfl
  | m :: t, acc => by
    have := hullFold_top t (hullStep acc m)
    simpa [foldlMin, hullStep] using this

lemma hullFold_right : ∀ (l : List Monitor) (acc : Int × Int × Int × Int),
    (l.foldl hullStep acc).2.2.1 = foldlMax (fun m => m.X + m.Width) acc.2.2.1 l
  | [], _ => rfl
  | m :: t, acc => by
    have := hullFold_right t (hullStep acc m)
    simpa [foldlMax, hullStep] using this

lemma hullFold_bottom : ∀ (l : List Monitor) (acc : Int × Int × Int × Int),
    (l.foldl hullStep acc).2.2.2 = foldlMax (fun m => m.Y + m.Height) acc.2.2.2 l
  | [], _ => rfl
  | m :: t, acc => by
    have := hullFold_bottom t (hullStep acc m)
    simpa [foldlMax, hullStep] using this

/-- C10: CaptureMonitors errors on an empty monitor list; on a non-empty
list it captures exactly the bounding-box hull: left and top are the
minima of the monitor left and top edges, right and bottom the maxima of
the right and bottom edges. -/
theorem captureMonitors_bounding_hull (ms : List Monitor) :
    (ms = [] → CaptureMonitors ms = .error "now monitor given")
    ∧ (∀ m0 rest, ms = m0 :: rest → ∃ r, CaptureMonitors ms = .ok r
        ∧ (∀ m ∈ ms, r.X ≤ m.X ∧ r.Y ≤ m.Y
            ∧ m.X + m.Width ≤ r.X + r.Width
            ∧ m.Y + m.Height ≤ r.Y + r.Height)
        ∧ (∃ m ∈ ms, r.X = m.X) ∧ (∃ m ∈ ms, r.Y = m.Y)
        ∧ (∃ m ∈ ms, r.X + r.Width = m.X + m.Width)
        ∧ (∃ m ∈ ms, r.Y + r.Height = m.Y + m.Height)) := by
  constructor
  · rintro rfl; rfl
  · rintro m0 rest rfl
    have eL := hullFold_left (m0 :: rest)
      (m0.X, m0.Y, m0.X + m0.Width, m0.Y + m0.Height)
    have eT := hullFold_top (m0 :: rest)
      (m0.X, m0.Y, m0.X + m0.Width, m0.Y + m0.Height)
    have eR := hullFold_right (m0 :: rest)
      (m0.X, m0.Y, m0.X + m0.Width, m0.Y + m0.Height)
    have eB := hullFold_bottom (m0 :: rest)
      (m0.X, m0.Y, m0.X + m0.Width, m0.Y + m0.Height)
    have pL := foldlMin_spec (fun m => m.X) (m0 :: rest) m0.X
    have pT := foldlMin_spec (fun m => m.Y) (m0 :: rest) m0.Y
    have pR := foldlMax_spec (fun m => m.X + m.Width) (m0 :: rest)
      (m0.X + m0.Width)
    have pB := foldlMax_spec (fun m => m.Y + m.Height) (m0 :: rest)
      (m0.Y + m0.Height)
    refine ⟨{ X := foldlMin (fun m => m.X) m0.X (m0 :: rest),
              Y := foldlMin (fun m => m.Y) m0.Y (m0 :: rest),
              Width := foldlMax (fun m => m.X + m.Width) (m0.X + m0.Width)
                  (m0 :: rest)
                - foldlMin (fun m => m.X) m0.X (m0 :: rest),
              Height := foldlMax (fun m => m.Y + m.Height) (m0.Y + m0.Height)
                  (m0 :: rest)
                - foldlMin (fun m => m.Y) m0.Y (m0 :: rest) },
      ?_, ?_, ?_, ?_, ?_, ?_⟩
    · show Except.ok _ = Except.ok _
      rw [eL, eT, eR, eB]
    · intro m hm
      have h1 := pL.2.1 m hm
      have h2 := pT.2.1 m hm
      have h3 := pR.2.1 m hm
      have h4 := pB.2.1 m hm
      have hEqR : foldlMin (fun m => m.X) m0.X (m0 :: rest)
          + (foldlMax (fun m => m.X + m.Width) (m0.X + m0.Width) (m0 :: rest)
            - foldlMin (fun m => m.X) m0.X (m0 :: rest))
          = foldlMax (fun m => m.X + m.Width) (m0.X + m0.Width) (m0 :: rest) := by
        omega
      have hEqB : foldlMin (fun m => m.Y) m0.Y (m0 :: rest)
          + (foldlMax (fun m => m.Y + m.Height) (m0.Y + m0.Height) (m0 :: rest)
            - foldlMin (fun m => m.Y) m0.Y (m0 :: rest))
          = foldlMax (fun m => m.Y + m.Height) (m0.Y + m0.Height) (m0 :: rest) := by
        omega
      exact ⟨h1, h2, le_of_le_of_eq h3 hEqR.symm, le_of_le_of_eq h4 hEqB.symm⟩
    · rcases pL.2.2 with h | ⟨m, hm, he⟩
      · exact ⟨m0, List.mem_cons_self _ _, h⟩
      · exact ⟨m, hm, he⟩
    · rcases pT.2.2 with h | ⟨m, hm, he⟩
      · exact ⟨m0, List.mem_cons_self _ _, h⟩
      · exact ⟨m, hm, he⟩
    · have hEqR : foldlMin (fun m => m.X) m0.X (m0 :: rest)
          + (foldlMax (fun m => m.X + m.Width) (m0.X + m0.Width) (m0 :: rest)
            - foldlMin (fun m => m.X) m0.X (m0 :: rest))
          = foldlMax (fun m => m.X + m.Width) (m0.X + m0.Width) (m0 :: rest) := by
        omega
      rcases pR.2.2 with h | ⟨m, hm, he⟩
      · exact ⟨m0, List.mem_cons_self _ _, hEqR.trans h⟩
      · exact ⟨m, hm, hEqR.trans he⟩
    · have hEqB : foldlMin (fun m => m.Y) m0.Y (m0 :: rest)
          + (foldlMax (fun m => m.Y + m.Height) (m0.Y + m0.Height) (m0 :: rest)
            - foldlMin (fun m => m.Y) m0.Y (m0 :: rest))
          = foldlMax (fun m => m.Y + m.Height) (m0.Y + m0.Height) (m0 :: rest) := by
        omega
      rcases pB.2.2 with h | ⟨m, hm, he⟩
      · exact ⟨m0, List.mem_cons_self _ _, hEqB.trans h⟩
      · exact ⟨m, hm, hEqB.trans he⟩

/-- A concrete primary monitor for the C10 witness. -/
def monA : Monitor :=
  { X := 0, Y := 0, Width := 100, Height := 50,
    WorkArea := ⟨0, 0, 0, 0⟩, Primary := true }

/-- A concrete secondary monitor for the C10 witness. -/
def monB : Monitor :=
  { X := -10, Y := 5, Width := 20, Height := 100,
    WorkArea := ⟨0, 0, 0, 0⟩, Primary := false }

/-- C10 witness: the empty list errors and a concrete two-monitor list
produces a hull rectangle whose left edge is one of the monitor left
edges. -/
theorem captureMonitors_bounding_hull_witness :
    CaptureMonitors [] = .error "now monitor given"
    ∧ ∃ r, CaptureMonitors [monA, monB] = .ok r
        ∧ ∃ m ∈ [monA, monB], r.X = m.X :=
  ⟨(captureMonitors_bounding_hull []).1 rfl,
   by
    obtain ⟨r, h1, _, h3, _⟩ :=
      (captureMonitors_bounding_hull [monA, monB]).2 monA [monB] rfl
    exact ⟨r, h1, h3⟩⟩

end Auto
